import Mathlib

/-!
Verification of the `nbt-compress` gzip recompressor (`src/main.rs`) against
its natural-language specification.

The program is a thin pipeline around three external codec operations
(gzip decode, fast gzip encode via libdeflater, iterative gzip encode via
zopfli).  The codecs are external collaborators, so they are modelled
abstractly by a `Codec` structure of functions on byte lists; the
repository's own logic (argument parsing, the iteration policy, the
fallback structure, the size comparator, the batch loop, and the
buffer-doubling decompress loop) is embedded directly from the source.

Bytes are modelled as `Nat`, byte strings as `List Nat`.  File reading and
writing are abstracted: the per-file pipeline is modelled as a function of
the bytes read, and a successful write is assumed (the filesystem itself
is not modelled).  Wall-clock timing is ignored.
-/

/-- Decidable equality for `Except`, so that concrete runs of the
embedded functions can be checked by `decide`. -/
instance exceptDecEq {ε α : Type} [DecidableEq ε] [DecidableEq α] :
    DecidableEq (Except ε α) := fun x y =>
  match x, y with
  | .ok a, .ok b =>
    if h : a = b then .isTrue (by rw [h]) else .isFalse (by simp [h])
  | .error a, .error b =>
    if h : a = b then .isTrue (by rw [h]) else .isFalse (by simp [h])
  | .ok _, .error _ => .isFalse (by simp)
  | .error _, .ok _ => .isFalse (by simp)

namespace NbtCompress

/-! ## Argument parsing (`main` lines 9-42, `parse_arg` lines 106-114)

Tokens are modelled as `List Char` (the source only ever slices after an
ASCII prefix, so byte indices and char indices agree on every path).
Rust's `str::parse::<i32>` accepts an optional `+`/`-` sign followed by
one or more ASCII decimal digits, and fails when the value overflows
`i32`; `parseI32core` embeds exactly that. -/

/-- Numeric value of a list of ASCII decimal digits, most significant first. -/
def digitsToNat (ds : List Char) : Nat :=
  ds.foldl (fun acc d => acc * 10 + (d.toNat - 48)) 0

/-- Rust `str::parse::<i32>()`: optional sign, then one or more decimal
digits, value must fit in `i32`.  `none` models `Err(ParseIntError)`. -/
def parseI32core (cs : List Char) : Option Int :=
  match cs with
  | [] => none
  | c :: rest =>
    let p := if c = '-' then (true, rest) else if c = '+' then (false, rest) else (false, cs)
    if p.2 ≠ [] ∧ p.2.all Char.isDigit then
      let v : Int := if p.1 then -(digitsToNat p.2 : Int) else (digitsToNat p.2 : Int)
      if -(2 ^ 31) ≤ v ∧ v ≤ 2 ^ 31 - 1 then some v else none
    else none

/-- The two error shapes `parse_arg` can produce: `parseFail` models
`Err("Failed to parse iterations: ...")`, `invalidArg` models
`Err("Invalid argument for parse_arg")`. -/
inductive ArgErr where
  | parseFail
  | invalidArg
deriving DecidableEq, Repr

/-- `parse_arg` (source lines 106-114): a token starting with `-i` has its
remainder after 2 chars parsed; a token starting with `--iterations` has
its remainder after 12 chars parsed; anything else is an invalid argument.
(In the source `args[index]` is the same string as `arg`, so the function
is a function of the token alone.) -/
def parseArgCore (arg : List Char) : Except ArgErr Int :=
  if arg.take 2 = "-i".toList then
    match parseI32core (arg.drop 2) with
    | some v => .ok v
    | none => .error .parseFail
  else if arg.take 12 = "--iterations".toList then
    match parseI32core (arg.drop 12) with
    | some v => .ok v
    | none => .error .parseFail
  else .error .invalidArg

/-- Outcome of `main`'s argument loop (lines 16-42):
`argError` = print error to stderr and `exit(1)`;
`usage` = empty file list, print usage and `exit(1)`;
`run` = proceed to the per-file loop with the accumulated state. -/
inductive ArgsOutcome where
  | argError (e : ArgErr)
  | usage
  | run (iterations : Int) (useZopfli : Bool) (files : List (List Char))
deriving DecidableEq, Repr

/-- The argument loop of `main` (lines 16-42), with the running state
`(iterations, use_zopfli, files)`.  `-z`/`--zopfli` set the flag; any
other token starting with `-` goes through `parse_arg`, whose failure
exits immediately with code 1; every remaining token is a file path,
order preserved.  After the loop an empty file list prints usage and
exits 1. -/
def argLoop : List (List Char) → Int → Bool → List (List Char) → ArgsOutcome
  | [], it, z, fs => if fs.isEmpty then .usage else .run it z fs
  | a :: rest, it, z, fs =>
    if a = "-z".toList ∨ a = "--zopfli".toList then
      argLoop rest it true fs
    else if a.head? = some '-' then
      match parseArgCore a with
      | .ok i => argLoop rest i z fs
      | .error e => .argError e
    else
      argLoop rest it z (fs ++ [a])

/-- `main`'s argument handling: skip `argv[0]`, then run the loop starting
from the sentinel `iterations = -1`, `use_zopfli = false`, no files. -/
def processArgs (args : List String) : ArgsOutcome :=
  argLoop (args.map String.toList).tail (-1) false []

/-! ## The codec collaborators and the per-file pipeline -/

/-- The external codec operations the pipeline composes
(spec section 6, "Collaborator contracts consumed"):
`decode` is gzip decoding (the source's `decompress` wrapper around
libdeflater, whose buffer-doubling loop is embedded separately below),
`encode9` is libdeflater's `gzip_compress` at a compression level,
`encodeZ` is `zopfli::compress` at an iteration count. -/
structure Codec where
  decode : List Nat → Except Unit (List Nat)
  encode9 : Nat → List Nat → Except Unit (List Nat)
  encodeZ : List Nat → Nat → Except Unit (List Nat)

/-- Result of the zopfli path: `panic` models an unwinding panic
(`NonZeroU64::new(0).unwrap()`), `err` a returned `Err`, `ok` a returned
`Ok` payload. -/
inductive ZRes where
  | panic
  | err
  | ok (out : List Nat)
deriving DecidableEq, Repr

/-- `NonZeroU64::new`: `none` exactly when the argument is zero. -/
def nonZeroU64New (n : Nat) : Option Nat :=
  if n = 0 then none else some n

/-- The effective iteration count chosen in `optimise_zopfli`
(source lines 135-141): the override unless it is the `-1` sentinel,
otherwise 100 for payloads over 20,000 bytes and 500 below. -/
def effIter (force : Int) (S : Nat) : Int :=
  if force ≠ -1 then force
  else if S > 20000 then 100
  else 500

/-- Rust's `iter as u64` cast from `i32`: reduction modulo `2^64`
(a negative `i32` sign-extends to a huge unsigned value). -/
def i32toU64 (i : Int) : Nat :=
  (i % (2 : Int) ^ 64).toNat

/-- The `u64` iteration count actually handed to `compress_zopfli` by
`optimise_zopfli` (line 143: `iter as u64`). -/
def invokedIter (force : Int) (S : Nat) : Nat :=
  i32toU64 (effIter force S)

/-- `compress_zopfli` (source lines 175-189): builds options with
`NonZeroU64::new(iter).unwrap()` — a panic when `iter` is zero — and
otherwise returns zopfli's output or its error. -/
def compress_zopfli (c : Codec) (stuff : List Nat) (iter : Nat) : ZRes :=
  match nonZeroU64New iter with
  | none => .panic
  | some n =>
    match c.encodeZ stuff n with
    | .ok o => .ok o
    | .error _ => .err

/-- `optimise_zopfli` (source lines 129-144): decompress the input
(propagating a decode error), pick the effective iteration count, then
`compress_zopfli(...).unwrap_or_else(|_| input)` — an encoder `Err` falls
back to the original raw bytes, while the zero-iteration panic unwinds. -/
def optimise_zopfli (c : Codec) (input : List Nat) (force : Int) : ZRes :=
  match c.decode input with
  | .error _ => .err
  | .ok contents =>
    match compress_zopfli c contents (invokedIter force contents.length) with
    | .panic => .panic
    | .err => .ok input
    | .ok o => .ok o

/-- `compress_libdeflater` (source lines 162-173): fast gzip encoding at
the given level; the destination buffer is sized by
`gzip_compress_bound`, and a library error becomes an `Err`. -/
def compress_libdeflater (c : Codec) (data : List Nat) (level : Nat) : ZRes :=
  match c.encode9 level data with
  | .ok o => .ok o
  | .error _ => .err

/-- Outcome of `compress_file` for one file whose bytes were read
successfully: `panic` aborts the process, `compErr` is the propagated
per-file `Err` from the compression step (printed to stderr), and
`done wrote disk saved` is the `Ok` path, recording whether the file was
overwritten, the bytes on disk afterwards, and the reported saved bytes. -/
inductive FileOutcome where
  | panic
  | compErr
  | done (wrote : Bool) (disk : List Nat) (saved : Nat)
deriving DecidableEq, Repr

/-- The size comparator of `compress_file` (source lines 79-97): overwrite
with the optimized bytes exactly when they are strictly shorter, reporting
`original − new` saved bytes; otherwise leave the original bytes and
report zero. -/
def sizeDecision (contents optimized : List Nat) : FileOutcome :=
  if optimized.length < contents.length then
    .done true optimized (contents.length - optimized.length)
  else
    .done false contents 0

/-- `compress_file` (source lines 64-104) after a successful read of
`contents`: in zopfli mode run `optimise_zopfli` with the iteration
override, otherwise `compress_libdeflater` at level 9; a compression
`Err` is printed and propagated (`return Err(e)`), a panic unwinds, and
an `Ok` result goes to the size comparator.  A successful write is
assumed. -/
def compress_file (c : Codec) (contents : List Nat) (iterations : Int) (zopfli : Bool) :
    FileOutcome :=
  match (if zopfli then optimise_zopfli c contents iterations
         else compress_libdeflater c contents 9) with
  | .panic => .panic
  | .err => .compErr
  | .ok optimized => sizeDecision contents optimized

/-! ## The batch loop and exit code (`main` lines 44-61)

Per-file processing is abstracted to an outcome function
`f : file ↦ Option (time, saved)` — `some` for `compress_file`'s `Ok`
path, `none` for its `Err` path (a panic would abort the process and is
outside this loop's model).  The loop accumulates the totals and ignores
errors (`Err(_) => {}`); `main` then returns normally, i.e. exit code 0. -/

/-- One iteration of the per-file loop of `main` (lines 48-54): an `Ok`
outcome adds its elapsed time and saved bytes to the running totals, an
`Err` outcome is ignored (`Err(_) => {}`). -/
def batchStep (f : List Char → Option (Nat × Nat)) (acc : Nat × Nat)
    (file : List Char) : Nat × Nat :=
  match f file with
  | some ts => (acc.1 + ts.1, acc.2 + ts.2)
  | none => acc

/-- The per-file loop of `main` (lines 47-55): fold the outcome of each
file into the running `(total_time, total_saved_space)`, skipping files
whose processing returned `Err`. -/
def runBatch (f : List Char → Option (Nat × Nat)) (files : List (List Char)) : Nat × Nat :=
  files.foldl (batchStep f) (0, 0)

/-- The process exit code as a function of the parsed arguments: 1 when an
argument failed to parse or no files were given, 0 when the per-file loop
runs to completion (regardless of per-file outcomes). -/
def mainExit (args : List String) : Nat :=
  match processArgs args with
  | .argError _ => 1
  | .usage => 1
  | .run _ _ _ => 0

/-! ## The buffer-doubling `decompress` loop (source lines 146-161)

`libdeflater`'s `gzip_decompress` on a fixed input is abstracted to a
function of the destination-buffer size alone: for each size it either
finishes with the decompressed payload (the source then truncates the
buffer to that payload), reports `InsufficientSpace`, or fails with
another error.  The loop starts the buffer at twice the input length and
doubles it on each `InsufficientSpace`.  The loop is given fuel so that
it is a total function; termination is then the statement that some
finite fuel returns an answer. -/

/-- One call of `gzip_decompress` into a buffer of a given size. -/
inductive DStep where
  | finish (out : List Nat)
  | insufficient
  | fail
deriving DecidableEq, Repr

/-- The `loop` of `decompress` at a current buffer size: return the
truncated payload on success, an error on any non-space error, and retry
with a doubled buffer on `InsufficientSpace`.  `none` means the fuel ran
out before the loop returned. -/
def decompressLoop (g : Nat → DStep) : Nat → Nat → Option (Except Unit (List Nat))
  | _, 0 => none
  | size, fuel + 1 =>
    match g size with
    | .finish out => some (.ok out)
    | .fail => some (.error ())
    | .insufficient => decompressLoop g (size * 2) fuel

/-- `decompress` (source lines 146-161): start with a buffer of twice the
input length and run the doubling loop. -/
def decompress (g : Nat → DStep) (dataLen : Nat) (fuel : Nat) :
    Option (Except Unit (List Nat)) :=
  decompressLoop g (dataLen * 2) fuel

/-! ## A concrete codec instance

The pipeline claims quantify over the external codecs, which are known
only through their collaborator contracts (spec section 6): decoding an
encoder's output yields exactly the bytes that were encoded.  To settle
the claims that fail, and to witness the ones that hold, a small concrete
codec satisfying those contracts is built here: a stream is either
`0 :: payload` (a stored block) or `1 :: run-length pairs` (a compressed
block), and the encoder picks whichever container is shorter.  Like real
gzip, this codec can shrink an already-encoded stream that used a stored
block, which is exactly the situation the failing claims need. -/

/-- Run-length encoding of the remaining list given the current run's
count and value; emits `count :: value :: ...` pairs with counts ≥ 1. -/
def rleAux : Nat → Nat → List Nat → List Nat
  | cnt, v, [] => [cnt, v]
  | cnt, v, x :: xs => if x = v then rleAux (cnt + 1) v xs else cnt :: v :: rleAux 1 x xs

/-- Run-length encoding as a flat list of `count, value` pairs. -/
def rle : List Nat → List Nat
  | [] => []
  | x :: xs => rleAux 1 x xs

/-- Decoding of a flat list of `count, value` pairs; rejects a zero count
or a dangling element. -/
def unrle : List Nat → Option (List Nat)
  | [] => some []
  | [_] => none
  | cnt :: v :: rest =>
    if cnt = 0 then none
    else (unrle rest).map (List.replicate cnt v ++ ·)

/-- Decoder of the toy format: `0 :: payload` is stored, `1 :: pairs` is
run-length compressed, anything else is a decode error. -/
def toyDecode : List Nat → Except Unit (List Nat)
  | 0 :: rest => .ok rest
  | 1 :: rest =>
    match unrle rest with
    | some p => .ok p
    | none => .error ()
  | _ => .error ()

/-- Encoder of the toy format: use the run-length container when it is
shorter than the stored container. -/
def toyEncode (l : List Nat) : List Nat :=
  if (1 :: rle l).length < (0 :: l).length then 1 :: rle l else 0 :: l

/-- The concrete codec: both encoders use the toy format (the fast one
ignoring its level, the iterative one ignoring its iteration count) and
never fail. -/
def exCodec : Codec where
  decode := toyDecode
  encode9 := fun _ l => .ok (toyEncode l)
  encodeZ := fun l _ => .ok (toyEncode l)

/-- A codec whose encoders always fail but whose decoder works; used to
exercise the encoder-failure paths of the pipeline. -/
def failCodec : Codec where
  decode := toyDecode
  encode9 := fun _ _ => .error ()
  encodeZ := fun _ _ => .error ()

theorem unrle_rleAux (xs : List Nat) : ∀ cnt v, cnt ≠ 0 →
    unrle (rleAux cnt v xs) = some (List.replicate cnt v ++ xs) := by
  induction xs with
  | nil =>
    intro cnt v hc
    simp [rleAux, unrle, hc]
  | cons x xs ih =>
    intro cnt v hc
    by_cases hxv : x = v
    · subst hxv
      rw [rleAux, if_pos rfl, ih (cnt + 1) x (Nat.succ_ne_zero cnt)]
      congr 1
      rw [List.replicate_add]
      simp
    · rw [rleAux, if_neg hxv, unrle, if_neg hc, ih 1 x one_ne_zero]
      simp

/-- Round-trip contract of the toy encoder: decoding an encoded stream
recovers exactly the encoded payload (the "conformant gzip stream"
contract of spec section 6). -/
theorem toyDecode_toyEncode (l : List Nat) : toyDecode (toyEncode l) = .ok l := by
  rw [toyEncode]
  split
  · cases l with
    | nil => simp_all [rle]
    | cons x xs => simp [rle, toyDecode, unrle_rleAux xs 1 x one_ne_zero]
  · rfl

/-- The same contract stated for `exCodec`'s iterative encoder. -/
theorem exCodec_encodeZ_contract (x : List Nat) (i : Nat) (o : List Nat)
    (h : exCodec.encodeZ x i = .ok o) : exCodec.decode o = .ok x := by
  have hx : toyEncode x = o := by
    simpa [exCodec] using h
  subst hx
  simpa [exCodec] using toyDecode_toyEncode x

/-! ## Claim theorems -/

/-- C3: in iterative-encoder mode with no explicit iteration override
(the `-1` sentinel `main` initializes `iterations` to), the effective
iteration count is a pure function of the decompressed payload size `S`:
100 when `S > 20000` and 500 otherwise, and that is also the `u64` count
handed to the encoder. -/
theorem c3_default_iteration_policy (S : Nat) :
    effIter (-1) S = (if S > 20000 then 100 else 500) ∧
    invokedIter (-1) S = (if S > 20000 then 100 else 500) := by
  constructor
  · simp [effIter]
  · rw [invokedIter, effIter]
    simp only [ne_eq, not_true_eq_false, if_false, reduceIte]
    split <;> decide

/-- C4 is false as stated: the argument parser accepts `-i-1` as the
integer `-1`, but `-1` is exactly the "unset" sentinel, so the default
size policy is applied (500 for an empty payload) instead of invoking the
encoder with `-1`. -/
theorem c4_counterexample :
    parseArgCore ("-i-1".toList) = .ok (-1) ∧
    effIter (-1) 0 = 500 ∧ ((500 : Int) ≠ -1) ∧
    invokedIter (-1) 0 = 500 := by decide

/-- C4 (amended): for every explicitly supplied iteration count `N ≥ 1`
(within the parser's `i32` range), the iterative encoder is invoked with
exactly `N`, regardless of the decompressed payload: the `u64` handed to
`compress_zopfli` is `N`, and `optimise_zopfli` reduces to the encoder
call at `N` followed by the error fallback.  (Explicitly supplying `-1`
collides with the unset sentinel, `0` panics, and other negative values
wrap modulo `2^64`.) -/
theorem c4_explicit_override (c : Codec) (input p : List Nat) (N : Int)
    (h1 : 1 ≤ N) (h2 : N < 2 ^ 31) (hp : c.decode input = .ok p) :
    invokedIter N p.length = N.toNat ∧
    optimise_zopfli c input N =
      (match c.encodeZ p N.toNat with
       | .ok o => ZRes.ok o
       | .error _ => ZRes.ok input) := by
  have hne : N ≠ -1 := by omega
  have heff : effIter N p.length = N := by simp [effIter, hne]
  have hinv : invokedIter N p.length = N.toNat := by
    rw [invokedIter, heff, i32toU64, Int.emod_eq_of_lt (by omega) (by omega)]
  have hNz : N.toNat ≠ 0 := by omega
  refine ⟨hinv, ?_⟩
  rw [optimise_zopfli, hp]
  simp only [compress_zopfli, hinv, nonZeroU64New, if_neg hNz]
  cases henc : c.encodeZ p N.toNat <;> simp [henc]

/-- C4 (witness): with the concrete codec, the stored stream `[0, 5]`
(payload `[5]`) and the explicit override `7`, the encoder is invoked
with exactly 7 iterations. -/
theorem c4_witness :
    invokedIter 7 ([5] : List Nat).length = (7 : Int).toNat ∧
    optimise_zopfli exCodec [0, 5] 7 =
      (match exCodec.encodeZ [5] (7 : Int).toNat with
       | .ok o => ZRes.ok o
       | .error _ => ZRes.ok [0, 5]) :=
  c4_explicit_override exCodec [0, 5] [5] 7 (by decide) (by decide) (by decide)

/-- C5: the size comparator overwrites exactly when the new stream is
strictly shorter (reporting original minus new length saved), leaves the
original bytes with zero saved otherwise, and on every `Ok` path of
`compress_file` the bytes on disk are never longer than the original. -/
theorem c5_overwrite_iff (c : Codec) (input : List Nat) (it : Int) (z : Bool) :
    (∀ optimized : List Nat,
      (optimized.length < input.length →
        sizeDecision input optimized =
          .done true optimized (input.length - optimized.length)) ∧
      (input.length ≤ optimized.length →
        sizeDecision input optimized = .done false input 0)) ∧
    (∀ w disk s, compress_file c input it z = .done w disk s →
      disk.length ≤ input.length ∧ s = input.length - disk.length ∧
      (w = false → disk = input) ∧ (w = true → disk.length < input.length)) := by
  have hsd : ∀ optimized w disk s, sizeDecision input optimized = .done w disk s →
      disk.length ≤ input.length ∧ s = input.length - disk.length ∧
      (w = false → disk = input) ∧ (w = true → disk.length < input.length) := by
    intro optimized w disk s h
    rw [sizeDecision] at h
    by_cases hlt : optimized.length < input.length
    · rw [if_pos hlt] at h
      simp only [FileOutcome.done.injEq] at h
      obtain ⟨hw, hd, hs⟩ := h
      subst hw; subst hd; subst hs
      exact ⟨Nat.le_of_lt hlt, rfl, by simp, fun _ => hlt⟩
    · rw [if_neg hlt] at h
      simp only [FileOutcome.done.injEq] at h
      obtain ⟨hw, hd, hs⟩ := h
      subst hw; subst hd; subst hs
      exact ⟨Nat.le_refl _, (Nat.sub_self _).symm, fun _ => rfl, by simp⟩
  constructor
  · intro optimized
    constructor
    · intro h; simp [sizeDecision, h]
    · intro h; simp [sizeDecision, Nat.not_lt.mpr h]
  · intro w disk s h
    rw [compress_file] at h
    cases hres : (if z then optimise_zopfli c input it
                  else compress_libdeflater c input 9) with
    | panic => rw [hres] at h; exact absurd h (by simp)
    | err => rw [hres] at h; exact absurd h (by simp)
    | ok o =>
      rw [hres] at h
      exact hsd o w disk s h

/-- C5 (witness): an optimized stream of length 1 against an original of
length 3 is written and saves 2 bytes. -/
theorem c5_witness :
    sizeDecision [0, 0, 0] [7] =
      .done true [7] (([0, 0, 0] : List Nat).length - ([7] : List Nat).length) :=
  ((c5_overwrite_iff exCodec [0, 0, 0] (-1) false).1 [7]).1 (by decide)

/-- C2 is false as stated for the default fast-encoder mode: when the
fast encoder fails, `compress_file` propagates the failure as the
per-file error outcome (`return Err(e)` at lines 71-74) instead of
falling back to the original bytes with zero saved. -/
theorem c2_counterexample :
    compress_file failCodec [0, 5] (-1) false = .compErr ∧
    compress_file failCodec [0, 5] (-1) false ≠ .done false [0, 5] 0 := by decide

/-- C2 (amended): in iterative (zopfli) mode only, an encoder failure
falls back to the original raw bytes (`unwrap_or_else(|_| input)`), which
then compare equal in length with themselves, so the file is left as it
was and the run is reported as success with zero bytes saved; in default
mode an encoder failure is propagated as the per-file error. -/
theorem c2_encode_failure_fallback (c : Codec) (input p : List Nat) (force : Int)
    (hp : c.decode input = .ok p)
    (hiter : invokedIter force p.length ≠ 0)
    (henc : c.encodeZ p (invokedIter force p.length) = .error ()) :
    compress_file c input force true = .done false input 0 := by
  rw [compress_file, if_pos rfl, optimise_zopfli, hp]
  simp only [compress_zopfli, nonZeroU64New, if_neg hiter, henc]
  simp [sizeDecision]

/-- C2 (witness): with the always-failing encoder, the zopfli run on the
stored stream `[0, 5]` reports success with zero bytes saved and leaves
the bytes unchanged. -/
theorem c2_witness :
    compress_file failCodec [0, 5] (-1) true = .done false [0, 5] 0 :=
  c2_encode_failure_fallback failCodec [0, 5] [5] (-1) (by decide) (by decide) (by decide)

/-- C9: `-i0` parses as the integer 0, which is distinct from the `-1`
sentinel, so the zopfli path invokes `compress_zopfli` with 0 iterations,
where `NonZeroU64::new(0)` is `None` and the `.unwrap()` panics; the
whole per-file pipeline therefore panics rather than reporting an
argument error. -/
theorem c9_zero_iterations_panic (c : Codec) (input p : List Nat)
    (hp : c.decode input = .ok p) :
    parseArgCore ("-i0".toList) = .ok 0 ∧
    invokedIter 0 p.length = 0 ∧
    nonZeroU64New 0 = none ∧
    compress_file c input 0 true = .panic := by
  have hinv : invokedIter 0 p.length = 0 := by
    rw [invokedIter, effIter]
    simp
    decide
  refine ⟨by decide, hinv, by decide, ?_⟩
  rw [compress_file, if_pos rfl, optimise_zopfli, hp]
  simp [compress_zopfli, hinv, nonZeroU64New]

/-- C9 (witness): the panic is reached on the concrete stored stream
`[0, 5]` with override 0. -/
theorem c9_witness :
    parseArgCore ("-i0".toList) = .ok 0 ∧
    invokedIter 0 ([5] : List Nat).length = 0 ∧
    nonZeroU64New 0 = none ∧
    compress_file exCodec [0, 5] 0 true = .panic :=
  c9_zero_iterations_panic exCodec [0, 5] [5] (by decide)

/-- C6 is false as stated: the program has no help-flag handling at all.
`-h` and `--help` start with `-` but match neither `-z`/`--zopfli` nor
the `-i`/`--iterations` prefixes, so `parse_arg` rejects them as invalid
arguments; the program prints a parse error and exits with code 1, not
with usage text and code 0. -/
theorem c6_counterexample :
    processArgs ["nbt-compress", "-h"] = .argError .invalidArg ∧
    processArgs ["nbt-compress", "--help"] = .argError .invalidArg ∧
    mainExit ["nbt-compress", "-h"] = 1 ∧
    mainExit ["nbt-compress", "--help"] = 1 := by decide

/-- C6 (amended): whenever a help token (`-h` or `--help`) is reached by
the argument loop, in any loop state, the program reports an
invalid-argument parse error and exits with code 1 before any file
processing; no usage text is printed for a help flag. -/
theorem c6_help_rejected (it : Int) (z : Bool) (fs rest : List (List Char)) :
    argLoop ("-h".toList :: rest) it z fs = .argError .invalidArg ∧
    argLoop ("--help".toList :: rest) it z fs = .argError .invalidArg := by
  have h1 : parseArgCore ("-h".toList) = .error .invalidArg := by decide
  have h2 : parseArgCore ("--help".toList) = .error .invalidArg := by decide
  constructor
  · rw [argLoop, if_neg (by decide), if_pos (by decide), h1]
  · rw [argLoop, if_neg (by decide), if_pos (by decide), h2]

/-- C7 is false as stated: the `--iterations=50` style is not accepted.
The source slices 12 characters off a `--iterations`-prefixed token, so
the remainder `=50` is handed to the integer parser, which rejects it;
the program reports the parse failure and exits with code 1 (before any
file is touched — the error path precedes the file loop). -/
theorem c7_counterexample :
    parseArgCore ("--iterations=50".toList) = .error .parseFail ∧
    processArgs ["nbt-compress", "--iterations=50", "file"] = .argError .parseFail ∧
    mainExit ["nbt-compress", "--iterations=50", "file"] = 1 := by decide

/-- C7 (amended): a joined suffix that parses as an `i32` is accepted in
the `-i50` style (and, symmetrically, a bare `--iterations50` style),
while the `=`-joined `--iterations=50` style always fails to parse and
is a fatal argument error. -/
theorem c7_iterations_suffix (cs : List Char) (v : Int)
    (h : parseI32core cs = some v) :
    parseArgCore ('-' :: 'i' :: cs) = .ok v ∧
    parseArgCore ('-' :: '-' :: 'i' :: 't' :: 'e' :: 'r' :: 'a' :: 't' :: 'i' :: 'o'
      :: 'n' :: 's' :: cs) = .ok v ∧
    parseArgCore ('-' :: '-' :: 'i' :: 't' :: 'e' :: 'r' :: 'a' :: 't' :: 'i' :: 'o'
      :: 'n' :: 's' :: '=' :: cs) = .error .parseFail := by
  have hd : ('=').isDigit = false := by decide
  have hne : parseI32core ('=' :: cs) = none := by
    rw [parseI32core]
    simp [List.all_cons, hd]
  refine ⟨?_, ?_, ?_⟩
  · rw [parseArgCore, if_pos (by simp [List.take])]
    simp only [List.drop_succ_cons, List.drop_zero]
    rw [h]
  · rw [parseArgCore, if_neg (by simp [List.take]), if_pos (by simp [List.take])]
    simp only [List.drop_succ_cons, List.drop_zero]
    rw [h]
  · rw [parseArgCore, if_neg (by simp [List.take]), if_pos (by simp [List.take])]
    simp only [List.drop_succ_cons, List.drop_zero]
    rw [hne]

/-- C7 (witness): the suffix `50` parses as 50 and is accepted after `-i`
but rejected after `--iterations=`. -/
theorem c7_witness :
    parseArgCore ('-' :: 'i' :: ['5', '0']) = .ok 50 ∧
    parseArgCore ('-' :: '-' :: 'i' :: 't' :: 'e' :: 'r' :: 'a' :: 't' :: 'i' :: 'o'
      :: 'n' :: 's' :: ['5', '0']) = .ok 50 ∧
    parseArgCore ('-' :: '-' :: 'i' :: 't' :: 'e' :: 'r' :: 'a' :: 't' :: 'i' :: 'o'
      :: 'n' :: 's' :: '=' :: ['5', '0']) = .error .parseFail :=
  c7_iterations_suffix ['5', '0'] 50 (by decide)

/-- Accumulation lemma for the per-file loop: folding from any starting
totals adds, componentwise, the sum of the times and saved bytes of the
successful files. -/
theorem batchStep_foldl (f : List Char → Option (Nat × Nat)) :
    ∀ (files : List (List Char)) (acc : Nat × Nat),
      files.foldl (batchStep f) acc =
        (acc.1 + (files.map fun x => ((f x).map Prod.fst).getD 0).sum,
         acc.2 + (files.map fun x => ((f x).map Prod.snd).getD 0).sum) := by
  intro files
  induction files with
  | nil => intro acc; simp
  | cons x xs ih =>
    intro acc
    rw [List.foldl_cons, ih]
    cases hfx : f x with
    | none => simp [batchStep, hfx]
    | some ts =>
      simp [batchStep, hfx, Prod.mk.injEq]
      omega

/-- C8: a failure on one file never aborts the batch.  The totals of the
per-file loop are the pointwise sums of each file's own independent
outcome (failed files contribute nothing, later files are still
processed), and whenever the arguments parse to a run, the process exits
with code 0 regardless of how many individual files failed. -/
theorem c8_batch_isolation (f : List Char → Option (Nat × Nat))
    (files : List (List Char)) (args : List String) (it : Int) (z : Bool)
    (fs : List (List Char)) (h : processArgs args = .run it z fs) :
    runBatch f files =
      ((files.map fun x => ((f x).map Prod.fst).getD 0).sum,
       (files.map fun x => ((f x).map Prod.snd).getD 0).sum) ∧
    mainExit args = 0 := by
  constructor
  · rw [runBatch, batchStep_foldl]
    simp
  · rw [mainExit, h]

/-- C8 (witness): a concrete batch where the middle file fails: both
remaining files still contribute their own outcomes and the exit code
is 0. -/
theorem c8_witness :
    runBatch (fun x => if x = "bad".toList then none else some (1, 2))
        ["a".toList, "bad".toList, "b".toList] =
      ((["a".toList, "bad".toList, "b".toList].map fun x =>
          (((fun x => if x = "bad".toList then none else some ((1 : Nat), (2 : Nat))) x).map
            Prod.fst).getD 0).sum,
       (["a".toList, "bad".toList, "b".toList].map fun x =>
          (((fun x => if x = "bad".toList then none else some ((1 : Nat), (2 : Nat))) x).map
            Prod.snd).getD 0).sum) ∧
    mainExit ["nbt-compress", "a", "bad", "b"] = 0 :=
  c8_batch_isolation (fun x => if x = "bad".toList then none else some (1, 2))
    ["a".toList, "bad".toList, "b".toList] ["nbt-compress", "a", "bad", "b"] (-1) false
    ["a".toList, "bad".toList, "b".toList] (by decide)

/-- C1 is false as stated for the default fast-encoder mode: that mode
recompresses the raw file bytes without decompressing them first
(`compress_libdeflater(contents.clone(), 9)` on line 69).  With the
concrete contract-conforming codec, the valid stream `0 :: 0^10`
(a stored container of ten zero bytes) double-compresses to the strictly
shorter `[1, 11, 0]`, which is therefore written — and decoding the
written bytes yields the original file bytes `0^11`, not the original
payload `0^10`. -/
theorem c1_counterexample :
    exCodec.decode (0 :: List.replicate 10 0) = .ok (List.replicate 10 0) ∧
    compress_file exCodec (0 :: List.replicate 10 0) (-1) false = .done true [1, 11, 0] 8 ∧
    exCodec.decode [1, 11, 0] ≠ exCodec.decode (0 :: List.replicate 10 0) := by decide

/-- C1 (amended): the round-trip property holds in iterative (zopfli)
mode: for every codec whose iterative encoder is conformant (decoding a
successfully encoded stream recovers the encoded payload), every valid
input, and every iteration override, whenever the pipeline completes,
decoding the bytes left on disk yields exactly what decoding the original
file bytes yields.  In default fast-encoder mode the input is never
decompressed, so the property fails there (see the counterexample). -/
theorem c1_roundtrip_zopfli (c : Codec)
    (hz : ∀ x i o, c.encodeZ x i = .ok o → c.decode o = .ok x)
    (input p : List Nat) (hp : c.decode input = .ok p) (force : Int)
    (w : Bool) (disk : List Nat) (s : Nat)
    (hdone : compress_file c input force true = .done w disk s) :
    c.decode disk = c.decode input := by
  rw [compress_file, if_pos rfl, optimise_zopfli, hp] at hdone
  by_cases hz0 : invokedIter force p.length = 0
  · simp only [compress_zopfli, nonZeroU64New, if_pos hz0] at hdone
    exact absurd hdone (by simp)
  · simp only [compress_zopfli, nonZeroU64New, if_neg hz0] at hdone
    cases henc : c.encodeZ p (invokedIter force p.length) with
    | error e =>
      simp only [henc] at hdone
      rw [sizeDecision, if_neg (by omega)] at hdone
      simp only [FileOutcome.done.injEq] at hdone
      rw [← hdone.2.1]
    | ok o =>
      simp only [henc] at hdone
      have ho : c.decode o = .ok p := hz p (invokedIter force p.length) o henc
      rw [sizeDecision] at hdone
      by_cases hlt : o.length < input.length
      · rw [if_pos hlt] at hdone
        simp only [FileOutcome.done.injEq] at hdone
        rw [← hdone.2.1, ho, hp]
      · rw [if_neg hlt] at hdone
        simp only [FileOutcome.done.injEq] at hdone
        rw [← hdone.2.1]

/-- C1 (witness): on the suboptimally stored valid stream `0 :: 7^10`,
the zopfli run writes the strictly smaller stream `[1, 10, 7]`, and
decoding the written bytes equals decoding the original. -/
theorem c1_witness :
    exCodec.decode [1, 10, 7] = exCodec.decode (0 :: List.replicate 10 7) :=
  c1_roundtrip_zopfli exCodec (fun x i o hxo => exCodec_encodeZ_contract x i o hxo)
    (0 :: List.replicate 10 7) (List.replicate 10 7) (by decide) (-1)
    true [1, 10, 7] 8 (by decide)

/-- Reachability of an answer for the buffer-doubling loop: if the
decoder stops reporting `InsufficientSpace` from buffer size `S` on,
then from any positive starting size the loop returns an answer within
fuel bounded through `S - size`. -/
theorem decompressLoop_reaches (g : Nat → DStep) (S : Nat)
    (hS : ∀ n, S ≤ n → g n ≠ .insufficient) :
    ∀ (k size : Nat), 1 ≤ size → S - size ≤ k →
      ∃ fuel r, decompressLoop g size fuel = some r := by
  intro k
  induction k with
  | zero =>
    intro size h1 hk
    cases hg : g size with
    | finish out => exact ⟨1, .ok out, by simp [decompressLoop, hg]⟩
    | fail => exact ⟨1, .error (), by simp [decompressLoop, hg]⟩
    | insufficient => exact absurd hg (hS size (by omega))
  | succ k ih =>
    intro size h1 hk
    cases hg : g size with
    | finish out => exact ⟨1, .ok out, by simp [decompressLoop, hg]⟩
    | fail => exact ⟨1, .error (), by simp [decompressLoop, hg]⟩
    | insufficient =>
      obtain ⟨fuel, r, hr⟩ := ih (size * 2) (by omega) (by omega)
      exact ⟨fuel + 1, r, by simp [decompressLoop, hg, hr]⟩

/-- C10: for every non-empty input (length at least 1), the
buffer-doubling loop of `decompress` terminates: it starts at twice the
input length, doubles only on `InsufficientSpace`, and — given that the
decoder stops reporting `InsufficientSpace` once the buffer reaches some
size `S` — returns a definite answer (the truncated payload or an error)
with some finite fuel. -/
theorem c10_decompress_terminates (g : Nat → DStep) (L S : Nat)
    (hL : 1 ≤ L) (hS : ∀ n, S ≤ n → g n ≠ .insufficient) :
    ∃ fuel r, decompress g L fuel = some r := by
  obtain ⟨fuel, r, hr⟩ := decompressLoop_reaches g S hS S (L * 2) (by omega) (by omega)
  exact ⟨fuel, r, by rw [decompress, hr]⟩

/-- A concrete decompressor step function: needs a buffer of at least 5
bytes, then finishes with payload `[1, 2, 3]`. -/
def exDecoder (n : Nat) : DStep :=
  if 5 ≤ n then .finish [1, 2, 3] else .insufficient

/-- C10 (witness): for input length 1 and the concrete decoder that
needs a 5-byte buffer, the doubling loop terminates. -/
theorem c10_witness : ∃ fuel r, decompress exDecoder 1 fuel = some r :=
  c10_decompress_terminates exDecoder 1 5 (by decide)
    (fun n hn => by simp [exDecoder, if_pos hn])

end NbtCompress
